import Mathlib

/-!
Verification development for the inline YouTube-search bot (`bot.py`).

The embedding models the two core components of the program:

* the cursor codec `encode_offset` / `decode_offset` (bot.py lines 51-62),
  including the parts of the Python standard library they rely on:
  `json.dumps` / `json.loads` (floats are kept as their source token, see
  `Json.float`), UTF-8 encoding and decoding, and
  `base64.urlsafe_b64encode` / `urlsafe_b64decode` (the latter via
  `binascii`'s non-strict decoder, see `a2bBase64`);
* the inline-query handler `inline_query_handler` (bot.py lines 65-125),
  with the upstream `youtube_search` call modelled as an injected capability
  `String → Option Json → Except Unit Json` (an `Except.error` outcome
  stands for any exception escaping the call: network failure,
  `raise_for_status`, or an unparseable body, bot.py lines 33-48).

Python's dynamically typed values as they appear after `json.loads` are
modelled by the inductive type `Json`; `Json.null` plays the role of
Python's `None`.  Operations that can raise (`it["id"]`, `.get` on a
non-dict, slicing a non-sequence, iterating a non-iterable) return
`Except Unit`; an `Except.error` reaching the top of the handler models an
uncaught exception.
-/

/-- JSON values / dynamically typed Python values produced by `json.loads`.
A Python float (produced by a number literal with a fractional or exponent
part, or by the `NaN` / `Infinity` / `-Infinity` constants) is kept as the
literal token that produced it; IEEE-754 arithmetic on the value is outside
the model, and no claim compares or computes with float values — the
program only moves them around. -/
inductive Json where
  | null
  | bool (b : Bool)
  | int (n : Int)
  | str (s : String)
  | float (tok : String)
  | arr (items : List Json)
  | obj (fields : List (String × Json))

/-- Python truthiness (`if x:`) of a decoded JSON value.  A float is falsy
exactly when it equals `0.0`: for the tokens `json.loads` can produce that
is "every significand digit is zero" (`0.0`, `-0.000e7`, ...), except that
a literal with a huge negative exponent (for example `1e-400`) underflows
to `0.0` in Python; that corner is outside the model. -/
def pyTruthy : Json → Bool
  | .null => false
  | .bool b => b
  | .int n => n != 0
  | .str s => s != ""
  | .float tok =>
    tok = "NaN" || tok = "Infinity" || tok = "-Infinity"
      || (tok.data.takeWhile (fun c => c ≠ 'e' ∧ c ≠ 'E')).any
           (fun c => '1' ≤ c ∧ c ≤ '9')
  | .arr [] => false
  | .arr (_ :: _) => true
  | .obj [] => false
  | .obj (_ :: _) => true

/-- Lookup in an association list with Python-dict semantics: `json.loads`
builds its dict left to right, so a duplicated key keeps the last
occurrence. -/
def lookupLast (kvs : List (String × Json)) (k : String) : Option Json :=
  match kvs.reverse.find? (fun p => p.1 == k) with
  | some p => some p.2
  | none => none

/-- `d.get(k)` with default `None`: both a missing key and a stored JSON
null come out as Python `None`, modelled as `none`. -/
def pyGetNone (kvs : List (String × Json)) (k : String) : Option Json :=
  match lookupLast kvs k with
  | some Json.null => none
  | some v => some v
  | none => none

/-- Python `==` between an arbitrary decoded value (or `None`) and a `str`:
true only when the value is a `str` with the same contents. -/
def pyEqStr (v : Option Json) (q : String) : Bool :=
  match v with
  | some (Json.str s) => s == q
  | _ => false

/-- `v.get(k, dflt)`; raises (`AttributeError`) when `v` is not a dict. -/
def pyDictGet (v : Json) (k : String) (dflt : Json) : Except Unit Json :=
  match v with
  | Json.obj kvs => Except.ok ((lookupLast kvs k).getD dflt)
  | _ => Except.error ()

/-- `v.get(k)` whose result is consumed as an optional value
(`thumb_url`); missing key and JSON null are both Python `None`. -/
def pyGetOpt (v : Json) (k : String) : Except Unit (Option Json) :=
  match v with
  | Json.obj kvs =>
    Except.ok (match lookupLast kvs k with
      | some Json.null => none
      | some x => some x
      | none => none)
  | _ => Except.error ()

/-- `v[k]` with a string key: `KeyError` when the key is missing,
`TypeError` when `v` is not a dict. -/
def pyIndex (v : Json) (k : String) : Except Unit Json :=
  match v with
  | Json.obj kvs =>
    match lookupLast kvs k with
    | some x => Except.ok x
    | none => Except.error ()
  | _ => Except.error ()

/-- `for x in v`: lists iterate their elements, strings their characters,
dicts their keys; other values raise `TypeError`. -/
def pyIter : Json → Except Unit (List Json)
  | .arr l => .ok l
  | .str s => .ok (s.data.map (fun c => Json.str (String.singleton c)))
  | .obj kvs => .ok (kvs.map (fun p => Json.str p.1))
  | _ => .error ()

/-- Python `a or b`. -/
def pyOr (a b : Json) : Json := if pyTruthy a then a else b

/-- `v[:n]`: slicing works on strings and lists and raises `TypeError`
otherwise.  Python slices by code point, as does `List Char`. -/
def pySlice (v : Json) (n : Nat) : Except Unit Json :=
  match v with
  | .str s => .ok (.str (String.mk (s.data.take n)))
  | .arr l => .ok (.arr (l.take n))
  | _ => .error ()

/-- ASCII whitespace stripped by `str.strip()`; the exotic unicode space
classes Python also strips are outside the model. -/
def pyWsChar (c : Char) : Bool :=
  c = ' ' || c = '\t' || c = '\n' || c = '\r' || c = Char.ofNat 11 || c = Char.ofNat 12

/-- `s.strip()`. -/
def pyStrip (s : String) : String :=
  String.mk (((s.data.dropWhile pyWsChar).reverse.dropWhile pyWsChar).reverse)

/-- A single-quote character, written via its code point. -/
def singleQuote : String := String.singleton (Char.ofNat 39)

mutual
/-- `repr(v)` for decoded JSON values, used by `str()` on containers.
Strings are rendered single-quoted; the escaping Python's `repr` applies
inside string literals is omitted (no claim depends on it).  A float prints
as its source token; Python's `repr` would canonicalize it (`1.50` →
`1.5`), which no claim depends on either. -/
def pyRepr : Json → String
  | .null => "None"
  | .bool true => "True"
  | .bool false => "False"
  | .int n => toString n
  | .str s => singleQuote ++ s ++ singleQuote
  | .float tok => tok
  | .arr l => "[" ++ pyReprList l ++ "]"
  | .obj kvs => "\x7b" ++ pyReprFields kvs ++ "\x7d"

/-- Comma-separated `repr` of list elements. -/
def pyReprList : List Json → String
  | [] => ""
  | [v] => pyRepr v
  | v :: rest => pyRepr v ++ ", " ++ pyReprList rest

/-- Comma-separated `repr` of dict entries. -/
def pyReprFields : List (String × Json) → String
  | [] => ""
  | [(k, v)] => singleQuote ++ k ++ singleQuote ++ ": " ++ pyRepr v
  | (k, v) :: rest =>
    singleQuote ++ k ++ singleQuote ++ ": " ++ pyRepr v ++ ", " ++ pyReprFields rest
end

/-- `str(v)` for the values an f-string interpolates: strings pass through
unchanged, scalars print as Python prints them, containers fall back to
`repr`. -/
def pyStr : Json → String
  | .null => "None"
  | .bool true => "True"
  | .bool false => "False"
  | .int n => toString n
  | .str s => s
  | .float tok => tok
  | .arr l => pyRepr (.arr l)
  | .obj kvs => pyRepr (.obj kvs)

/-! ### `json.dumps` (with its default `ensure_ascii=True`) -/

/-- Lowercase hexadecimal digit, as `"%04x" % n` produces. -/
def hexDig (k : Nat) : Char :=
  if k < 10 then Char.ofNat (48 + k) else Char.ofNat (87 + k)

/-- Four lowercase hex digits of `n < 0x10000` (`"\u%04x"` formatting). -/
def hex4 (n : Nat) : List Char :=
  [hexDig (n / 4096 % 16), hexDig (n / 256 % 16), hexDig (n / 16 % 16), hexDig (n % 16)]

/-- How `json.dumps` renders one character inside a string literal:
backslash and quote get two-character escapes, other printable ASCII passes
through, the short control escapes `\b \t \n \f \r` apply, and everything
else (other control characters and, under `ensure_ascii`, all non-ASCII)
becomes `\uXXXX`, with a surrogate pair for code points above 0xFFFF. -/
def escChar (c : Char) : List Char :=
  if c = '\\' then ['\\', '\\']
  else if c = '"' then ['\\', '"']
  else if 0x20 ≤ c.toNat ∧ c.toNat ≤ 0x7e then [c]
  else if c = '\t' then ['\\', 't']
  else if c = '\n' then ['\\', 'n']
  else if c = '\r' then ['\\', 'r']
  else if c.toNat = 8 then ['\\', 'b']
  else if c.toNat = 12 then ['\\', 'f']
  else if c.toNat < 0x10000 then ['\\', 'u'] ++ hex4 c.toNat
  else
    ['\\', 'u'] ++ hex4 (0xd800 + (c.toNat - 0x10000) / 0x400)
      ++ ['\\', 'u'] ++ hex4 (0xdc00 + (c.toNat - 0x10000) % 0x400)

/-- `escChar` applied across a character list. -/
def escList : List Char → List Char
  | [] => []
  | c :: rest => escChar c ++ escList rest

/-- `json.dumps` of a string value: quoted, with every character escaped as
`escChar` describes. -/
def dumpStr (s : String) : String :=
  String.mk ('"' :: (escList s.data ++ ['"']))

mutual
/-- `json.dumps(v)` with the default separators `", "` and `": "`.
Integer rendering matches Python's `str`; a float is rendered as its
source token (Python would canonicalize it via `float.__repr__`, which no
claim depends on — the program never dumps a float it did not itself
decode). -/
def dumpVal : Json → String
  | .null => "null"
  | .bool true => "true"
  | .bool false => "false"
  | .int n => toString n
  | .str s => dumpStr s
  | .float tok => tok
  | .arr l => "[" ++ dumpValList l ++ "]"
  | .obj kvs => "\x7b" ++ dumpValFields kvs ++ "\x7d"

/-- Elements of a dumped JSON array, `", "`-separated. -/
def dumpValList : List Json → String
  | [] => ""
  | [v] => dumpVal v
  | v :: rest => dumpVal v ++ ", " ++ dumpValList rest

/-- Entries of a dumped JSON object, `", "`-separated with `": "` between
key and value. -/
def dumpValFields : List (String × Json) → String
  | [] => ""
  | [(k, v)] => dumpStr k ++ ": " ++ dumpVal v
  | (k, v) :: rest => dumpStr k ++ ": " ++ dumpVal v ++ ", " ++ dumpValFields rest
end

/-- `json.dumps({"q": query, "pageToken": tok})` — dict literals preserve
insertion order, so the two keys always appear in this order
(bot.py line 52). -/
def payloadDump (query : String) (tok : Json) : String :=
  "\x7b\"q\": " ++ dumpStr query ++ ", \"pageToken\": " ++ dumpVal tok ++ "\x7d"

/-! ### UTF-8 (`str.encode()` / `bytes.decode()`) -/

/-- UTF-8 bytes of one character. -/
def utf8EncodeChar (c : Char) : List Nat :=
  if c.toNat < 0x80 then [c.toNat]
  else if c.toNat < 0x800 then [0xc0 + c.toNat / 64, 0x80 + c.toNat % 64]
  else if c.toNat < 0x10000 then
    [0xe0 + c.toNat / 4096, 0x80 + c.toNat / 64 % 64, 0x80 + c.toNat % 64]
  else
    [0xf0 + c.toNat / 262144, 0x80 + c.toNat / 4096 % 64, 0x80 + c.toNat / 64 % 64,
      0x80 + c.toNat % 64]

/-- `s.encode()`: UTF-8 bytes of a string (as a list of byte values). -/
def utf8Encode : List Char → List Nat
  | [] => []
  | c :: rest => utf8EncodeChar c ++ utf8Encode rest

/-- One step of strict UTF-8 decoding: decode the first code point and
return it with the remaining bytes, or fail (`UnicodeDecodeError`) on a
stray continuation byte, an overlong form, a surrogate, or a code point
above 0x10FFFF — exactly where Python's `bytes.decode()` raises. -/
def utf8Step : List Nat → Option (Char × List Nat)
  | [] => none
  | b :: rest =>
    if b < 0x80 then some (Char.ofNat b, rest)
    else if b < 0xc2 then none
    else if b < 0xe0 then
      match rest with
      | b2 :: rest2 =>
        if 0x80 ≤ b2 ∧ b2 < 0xc0 then
          some (Char.ofNat ((b - 0xc0) * 64 + (b2 - 0x80)), rest2)
        else none
      | [] => none
    else if b < 0xf0 then
      match rest with
      | b2 :: b3 :: rest2 =>
        if (0x80 ≤ b2 ∧ b2 < 0xc0) ∧ (0x80 ≤ b3 ∧ b3 < 0xc0)
            ∧ (b = 0xe0 → 0xa0 ≤ b2) ∧ (b = 0xed → b2 < 0xa0) then
          some (Char.ofNat ((b - 0xe0) * 4096 + (b2 - 0x80) * 64 + (b3 - 0x80)), rest2)
        else none
      | _ => none
    else if b < 0xf5 then
      match rest with
      | b2 :: b3 :: b4 :: rest2 =>
        if (0x80 ≤ b2 ∧ b2 < 0xc0) ∧ (0x80 ≤ b3 ∧ b3 < 0xc0) ∧ (0x80 ≤ b4 ∧ b4 < 0xc0)
            ∧ (b = 0xf0 → 0x90 ≤ b2) ∧ (b = 0xf4 → b2 < 0x90) then
          some (Char.ofNat ((b - 0xf0) * 262144 + (b2 - 0x80) * 4096
            + (b3 - 0x80) * 64 + (b4 - 0x80)), rest2)
        else none
      | _ => none
    else none

/-- Iterated `utf8Step`.  The fuel only bounds the number of decoded
characters for the termination checker; each step consumes at least one
byte, so the fuel `utf8Decode` passes can never run out. -/
def utf8Loop : Nat → List Nat → Option (List Char)
  | 0, _ => none
  | fuel + 1, l =>
    match l with
    | [] => some []
    | _ :: _ =>
      match utf8Step l with
      | none => none
      | some (c, rest) =>
        match utf8Loop fuel rest with
        | some cs => some (c :: cs)
        | none => none

/-- `bytes.decode()`: strict UTF-8 decoding of a byte list. -/
def utf8Decode (l : List Nat) : Option (List Char) :=
  utf8Loop (l.length + 1) l

/-! ### `base64.urlsafe_b64encode` / `urlsafe_b64decode` -/

/-- Character `n` (for `n < 64`) of the URL-safe base64 alphabet
`A-Z a-z 0-9 - _`. -/
def b64Char (n : Nat) : Char :=
  if n < 26 then Char.ofNat (65 + n)
  else if n < 52 then Char.ofNat (97 + (n - 26))
  else if n < 62 then Char.ofNat (48 + (n - 52))
  else if n = 62 then '-'
  else '_'

/-- Value of a base64 character.  `urlsafe_b64decode` first translates
`-_` to `+/` and then decodes with the standard alphabet, so both variants
are accepted. -/
def b64Val (c : Char) : Option Nat :=
  let n := c.toNat
  if 65 ≤ n ∧ n ≤ 90 then some (n - 65)
  else if 97 ≤ n ∧ n ≤ 122 then some (26 + (n - 97))
  else if 48 ≤ n ∧ n ≤ 57 then some (52 + (n - 48))
  else if n = 43 ∨ n = 45 then some 62
  else if n = 47 ∨ n = 95 then some 63
  else none

/-- `base64.urlsafe_b64encode`: three bytes become four alphabet
characters; a trailing group of one or two bytes is padded with `=`. -/
def b64EncodeBytes : List Nat → List Char
  | [] => []
  | [b1] => [b64Char (b1 / 4), b64Char (b1 % 4 * 16), '=', '=']
  | [b1, b2] => [b64Char (b1 / 4), b64Char (b1 % 4 * 16 + b2 / 16), b64Char (b2 % 16 * 4), '=']
  | b1 :: b2 :: b3 :: rest =>
    b64Char (b1 / 4) :: b64Char (b1 % 4 * 16 + b2 / 16)
      :: b64Char (b2 % 16 * 4 + b3 / 64) :: b64Char (b3 % 64) :: b64EncodeBytes rest

/-- `binascii.a2b_base64` in non-strict mode (what `base64.b64decode`
calls): a character scanner over the state `(quadPos, leftchar, pads,
emitted bytes)`, mirroring CPython's loop.  A non-alphabet character is
skipped.  An `=` at quad position 0 or 1 is skipped; at position 2 the
first `=` only counts (`pads + 1`), and as soon as
`quadPos + pads + 1 = 4` decoding is DONE — the emitted bytes are
returned and the rest of the input, valid or not, is ignored
(`b64decode(b'QQ==XYZA') = b'A'`).  A valid character resets `pads`
(`b64decode(b'QQ=X=')` yields two bytes).  Bytes are emitted eagerly,
one per character from the second of a quad on.  Input exhausted at quad
position 1, 2 or 3 is the "invalid padding" / "number of data
characters" error (`none`), even after a lone `=` (`b64decode(b'QQ=')`
raises). -/
def a2bBase64 : List Char → Nat → Nat → Nat → List Nat → Option (List Nat)
  | [], quadPos, _, _, acc => if quadPos = 0 then some acc.reverse else none
  | c :: rest, quadPos, leftchar, pads, acc =>
    if c = '=' then
      if 2 ≤ quadPos then
        if 4 ≤ quadPos + pads + 1 then some acc.reverse
        else a2bBase64 rest quadPos leftchar (pads + 1) acc
      else a2bBase64 rest quadPos leftchar pads acc
    else
      match b64Val c with
      | none => a2bBase64 rest quadPos leftchar pads acc
      | some v =>
        if quadPos = 0 then a2bBase64 rest 1 v 0 acc
        else if quadPos = 1 then a2bBase64 rest 2 (v % 16) 0 ((leftchar * 4 + v / 16) :: acc)
        else if quadPos = 2 then a2bBase64 rest 3 (v % 4) 0 ((leftchar * 16 + v / 4) :: acc)
        else a2bBase64 rest 0 0 0 ((leftchar * 64 + v) :: acc)

/-- `base64.urlsafe_b64decode(s.encode())`: the `-_` → `+/` translation
is already folded into `b64Val`, and every byte of a multi-byte UTF-8
sequence is outside the alphabet, so the scanner skips it like any other
invalid character. -/
def b64DecodeStr (s : String) : Option (List Nat) :=
  a2bBase64 s.data 0 0 0 []

/-! ### `json.loads` -/

/-- The whitespace `json.loads` skips between tokens. -/
def jsonWs (c : Char) : Bool :=
  c = ' ' || c = '\t' || c = '\n' || c = '\r'

/-- Drop leading JSON whitespace. -/
def skipWs : List Char → List Char
  | [] => []
  | c :: rest => if jsonWs c then skipWs rest else c :: rest

/-- Value of one hex digit (`int(_, 16)` on a single character). -/
def hexVal (c : Char) : Option Nat :=
  let n := c.toNat
  if 48 ≤ n ∧ n ≤ 57 then some (n - 48)
  else if 97 ≤ n ∧ n ≤ 102 then some (n - 87)
  else if 65 ≤ n ∧ n ≤ 70 then some (n - 55)
  else none

/-- Value of the four hex digits of a `\uXXXX` escape. -/
def hex4Val (h1 h2 h3 h4 : Char) : Option Nat :=
  match hexVal h1, hexVal h2, hexVal h3, hexVal h4 with
  | some a, some b, some c, some d => some (a * 4096 + b * 256 + c * 16 + d)
  | _, _, _, _ => none

/-- Prepend a character to the contents of a string-parse result. -/
def consRes (c : Char) (r : Option (List Char × List Char)) : Option (List Char × List Char) :=
  match r with
  | some (l, rest) => some (c :: l, rest)
  | none => none

/-- One unit of a JSON string literal's body: either the closing quote
(`some (none, rest)`), or one decoded character (`some (some c, rest)`).
Escapes and the strict-mode rejection of raw control characters follow
`json.loads`.  A `\uXXXX` escape that is a high surrogate must be
followed by a low surrogate escape; Python would keep an unpaired
surrogate as a lone surrogate character, which a Lean `Char` (a unicode
scalar value) cannot represent, so the model rejects that case instead
(no payload this program produces contains one). -/
def strStep : List Char → Option (Option Char × List Char)
  | [] => none
  | c :: cs =>
    if c = '"' then some (none, cs)
    else if c = '\\' then
      match cs with
      | [] => none
      | e :: cs2 =>
        if e = '"' then some (some '"', cs2)
        else if e = '\\' then some (some '\\', cs2)
        else if e = '/' then some (some '/', cs2)
        else if e = 'b' then some (some (Char.ofNat 8), cs2)
        else if e = 'f' then some (some (Char.ofNat 12), cs2)
        else if e = 'n' then some (some '\n', cs2)
        else if e = 'r' then some (some '\r', cs2)
        else if e = 't' then some (some '\t', cs2)
        else if e = 'u' then
          match cs2 with
          | h1 :: h2 :: h3 :: h4 :: cs3 =>
            match hex4Val h1 h2 h3 h4 with
            | none => none
            | some n =>
              if 0xd800 ≤ n ∧ n < 0xdc00 then
                match cs3 with
                | c5 :: c6 :: g1 :: g2 :: g3 :: g4 :: cs4 =>
                  if c5 = '\\' ∧ c6 = 'u' then
                    match hex4Val g1 g2 g3 g4 with
                    | none => none
                    | some m =>
                      if 0xdc00 ≤ m ∧ m < 0xe000 then
                        some (some (Char.ofNat (0x10000 + (n - 0xd800) * 0x400 + (m - 0xdc00))), cs4)
                      else none
                  else none
                | _ => none
              else if 0xdc00 ≤ n ∧ n < 0xe000 then none
              else some (some (Char.ofNat n), cs3)
          | _ => none
        else none
    else if c.toNat < 0x20 then none
    else some (some c, cs)

/-- Iterated `strStep`.  The fuel only bounds the number of decoded
characters for the termination checker; each step consumes at least one
input character, so the fuel `parseStrBody` passes can never run out. -/
def parseStrLoop : Nat → List Char → Option (List Char × List Char)
  | 0, _ => none
  | fuel + 1, cs =>
    match strStep cs with
    | none => none
    | some (none, rest) => some ([], rest)
    | some (some c, rest) => consRes c (parseStrLoop fuel rest)

/-- The body of a JSON string literal, after the opening quote: the
decoded characters and the input following the closing quote. -/
def parseStrBody (cs : List Char) : Option (List Char × List Char) :=
  parseStrLoop (cs.length + 1) cs

/-- Decimal digit test. -/
def isDigitCh (c : Char) : Bool := 48 ≤ c.toNat ∧ c.toNat ≤ 57

/-- Numeric value of a digit run. -/
def digitsToNat (l : List Char) : Nat :=
  l.foldl (fun a c => a * 10 + (c.toNat - 48)) 0

/-- A JSON number, matching the longest prefix the scanner's number
grammar `-?(0|[1-9][0-9]*)([.][0-9]+)?([eE][+-]?[0-9]+)?` accepts: an
integer part (a lone `0` or a run not starting with `0`), then a
fractional part only if a `.` is directly followed by a digit, then an
exponent part only if `e`/`E` (with optional sign) is followed by a
digit.  An integral match is Python `int`; a match with a fractional or
exponent part is a Python float, kept as its token (`Json.float`).
Input the grammar does not accept at all is `none`; trailing characters
beyond the match are left for the surrounding parse (so `1.` parses as
the int `1` with `.` left over, exactly as `json.loads` scans it). -/
def parseNum (cs : List Char) : Option (Json × List Char) :=
  let p := match cs with
    | c :: rest => if c = '-' then (true, rest) else (false, cs)
    | [] => (false, cs)
  let ip := match p.2 with
    | '0' :: r => (['0'], r)
    | _ => p.2.span isDigitCh
  if ip.1.isEmpty then none
  else
    let fr := match ip.2 with
      | '.' :: r2 =>
        match r2.span isDigitCh with
        | ([], _) => (([] : List Char), ip.2)
        | (fds, r3) => ('.' :: fds, r3)
      | _ => (([] : List Char), ip.2)
    let ex := match fr.2 with
      | e :: r4 =>
        if e = 'e' ∨ e = 'E' then
          match r4 with
          | s :: r5 =>
            if s = '+' ∨ s = '-' then
              match r5.span isDigitCh with
              | ([], _) => (([] : List Char), fr.2)
              | (eds, r6) => (e :: s :: eds, r6)
            else
              match r4.span isDigitCh with
              | ([], _) => (([] : List Char), fr.2)
              | (eds, r6) => (e :: eds, r6)
          | [] => (([] : List Char), fr.2)
        else (([] : List Char), fr.2)
      | [] => (([] : List Char), fr.2)
    if fr.1.isEmpty ∧ ex.1.isEmpty then
      some (.int (if p.1 then -(digitsToNat ip.1 : Int) else (digitsToNat ip.1 : Int)), ip.2)
    else
      some (.float (String.mk ((if p.1 then ['-'] else []) ++ ip.1 ++ fr.1 ++ ex.1)), ex.2)

/-- The non-recursive JSON values: the literal names `true` / `false` /
`null`, the float constants `NaN` / `Infinity` / `-Infinity` that
`json.loads` also accepts (kept as tokens), and numbers. -/
def parseAtom (cs : List Char) : Option (Json × List Char) :=
  match cs with
  | 't' :: 'r' :: 'u' :: 'e' :: rest => some (.bool true, rest)
  | 'f' :: 'a' :: 'l' :: 's' :: 'e' :: rest => some (.bool false, rest)
  | 'n' :: 'u' :: 'l' :: 'l' :: rest => some (.null, rest)
  | 'N' :: 'a' :: 'N' :: rest => some (.float "NaN", rest)
  | 'I' :: 'n' :: 'f' :: 'i' :: 'n' :: 'i' :: 't' :: 'y' :: rest =>
    some (.float "Infinity", rest)
  | '-' :: 'I' :: 'n' :: 'f' :: 'i' :: 'n' :: 'i' :: 't' :: 'y' :: rest =>
    some (.float "-Infinity", rest)
  | _ => parseNum cs

mutual
/-- One JSON value, skipping leading whitespace.  The fuel argument bounds
the container-nesting depth the parse may enter; `jsonLoads` passes more
fuel than any input can consume. -/
def parseVal : Nat → List Char → Option (Json × List Char)
  | fuel, cs =>
    match skipWs cs with
    | [] => none
    | c :: rest =>
      if c = '"' then
        match parseStrBody rest with
        | some (sl, rest2) => some (.str (String.mk sl), rest2)
        | none => none
      else if c = '\x7b' then
        match fuel with
        | 0 => none
        | f + 1 => parseObjMembers f rest
      else if c = '[' then
        match fuel with
        | 0 => none
        | f + 1 => parseArrItems f rest
      else parseAtom (c :: rest)

/-- The members of a JSON object, after the opening brace: either the
closing brace immediately, or `"key": value` members separated by commas
(a comma must be followed by another key — `json.loads` rejects trailing
commas). -/
def parseObjMembers : Nat → List Char → Option (Json × List Char)
  | fuel, cs =>
    match skipWs cs with
    | [] => none
    | c :: rest =>
      if c = '\x7d' then some (.obj [], rest)
      else if c = '"' then
        match parseStrBody rest with
        | none => none
        | some (kl, rest2) =>
          match skipWs rest2 with
          | [] => none
          | c2 :: rest3 =>
            if c2 = ':' then
              match fuel with
              | 0 => none
              | f + 1 =>
                match parseVal f rest3 with
                | none => none
                | some (v, rest4) =>
                  match skipWs rest4 with
                  | [] => none
                  | c3 :: rest5 =>
                    if c3 = '\x7d' then some (.obj [(String.mk kl, v)], rest5)
                    else if c3 = ',' then
                      match skipWs rest5 with
                      | c4 :: rest6 =>
                        if c4 = '"' then
                          match parseObjMembers f (c4 :: rest6) with
                          | some (.obj kvs, rest7) =>
                            some (.obj ((String.mk kl, v) :: kvs), rest7)
                          | _ => none
                        else none
                      | [] => none
                    else none
            else none
      else none

/-- The items of a JSON array, after the opening bracket; a comma must be
followed by another value. -/
def parseArrItems : Nat → List Char → Option (Json × List Char)
  | fuel, cs =>
    match skipWs cs with
    | [] => none
    | c :: rest =>
      if c = ']' then some (.arr [], rest)
      else
        match fuel with
        | 0 => none
        | f + 1 =>
          match parseVal f (c :: rest) with
          | none => none
          | some (v, rest2) =>
            match skipWs rest2 with
            | [] => none
            | c2 :: rest3 =>
              if c2 = ']' then some (.arr [v], rest3)
              else if c2 = ',' then
                match skipWs rest3 with
                | d :: rest4 =>
                  if d = ']' then none
                  else
                    match parseArrItems f (d :: rest4) with
                    | some (.arr vs, rest5) => some (.arr (v :: vs), rest5)
                    | _ => none
                | [] => none
              else none
end

/-- `json.loads`: parse one value and require only whitespace after it.
Each unit of fuel spent by the parser consumes at least one input
character first, so `length + 1` units can never run out. -/
def jsonLoads (s : String) : Option Json :=
  match parseVal (s.length + 1) s.data with
  | some (v, rest) => if skipWs rest = [] then some v else none
  | none => none

/-! ### The cursor codec (bot.py lines 51-62) -/

/-- `json.dumps({"q": query, "pageToken": page_token})` — a Python
`Optional[str]` serializes `None` as JSON null. -/
def optTokenJson : Option String → Json
  | none => Json.null
  | some s => Json.str s

/-- `encode_offset` applied to the query and an arbitrary already-decoded
JSON value as token (the handler passes `data.get("nextPageToken", "")`
straight through, bot.py line 123). -/
def encodeOffsetVal (query : String) (tok : Json) : String :=
  String.mk (b64EncodeBytes (utf8Encode (payloadDump query tok).data))

/-- bot.py lines 51-53:
`base64.urlsafe_b64encode(json.dumps({"q": query, "pageToken": page_token}).encode()).decode()`.
(The final `.decode()` is the identity here: base64 output is ASCII.) -/
def encode_offset (query : String) (page_token : Option String) : String :=
  encodeOffsetVal query (optTokenJson page_token)

/-- The composed fallible pipeline inside `decode_offset`'s `try:` block:
base64-decode, UTF-8-decode, then `json.loads`. -/
def cursorParse (offset : String) : Option Json :=
  match b64DecodeStr offset with
  | none => none
  | some bytes =>
    match utf8Decode bytes with
    | none => none
    | some chars => jsonLoads (String.mk chars)

/-- bot.py lines 56-62: any exception inside the `try:` block — bad
base64, bad UTF-8, bad JSON, or `.get` on a non-dict (`AttributeError`) —
is caught and becomes `(None, None)`. -/
def decode_offset (offset : String) : Option Json × Option Json :=
  match cursorParse offset with
  | some (Json.obj kvs) => (pyGetNone kvs "q", pyGetNone kvs "pageToken")
  | _ => (none, none)

/-! ### `html.escape` -/

/-- How `html.escape(s)` (with its default `quote=True`) rewrites one
character.  The source applies chained `str.replace` calls with `&` first;
since no replacement output contains a character replaced later, that
equals this single per-character pass. -/
def escHtmlChar (c : Char) : List Char :=
  if c = '&' then ['&', 'a', 'm', 'p', ';']
  else if c = '<' then ['&', 'l', 't', ';']
  else if c = '>' then ['&', 'g', 't', ';']
  else if c = '"' then ['&', 'q', 'u', 'o', 't', ';']
  else if c = Char.ofNat 39 then ['&', '#', 'x', '2', '7', ';']
  else [c]

/-- `escHtmlChar` applied across a character list. -/
def htmlEscapeList : List Char → List Char
  | [] => []
  | c :: rest => escHtmlChar c ++ htmlEscapeList rest

/-- `html.escape(s)`. -/
def htmlEscape (s : String) : String :=
  String.mk (htmlEscapeList s.data)

/-! ### The inline-query handler (bot.py lines 65-125) -/

/-- bot.py line 30. -/
def RESULTS_PER_PAGE : Nat := 10

/-- One `InlineQueryResultArticle` as the handler constructs it
(bot.py lines 105-121), with the `InputTextMessageContent` and the single
keyboard button flattened into fields. -/
structure Card where
  id : Json
  title : Json
  description : Json
  thumb_url : Option Json
  input_message_text : String
  parse_mode : String
  button_text : String
  button_url : String

/-- The `iq.answer(...)` payload: result cards plus the caching directives
and the `next_offset` string. -/
structure Answer where
  results : List Card
  is_personal : Bool
  cache_time : Nat
  next_offset : String

/-- The `iq.answer([], is_personal=True, cache_time=1, next_offset="")`
used on the empty-query and upstream-error paths (bot.py lines 80, 88). -/
def emptyAnswer : Answer :=
  { results := [], is_personal := true, cache_time := 1, next_offset := "" }

/-- The identifier extraction `it["id"].get("videoId")` on its own
(bot.py line 96). -/
def itemVid (it : Json) : Except Unit Json :=
  match pyIndex it "id" with
  | Except.error e => Except.error e
  | Except.ok idv => pyDictGet idv "videoId" Json.null

/-- Whether extracting an item's video id succeeds and yields a truthy
value — the items the mapping loop keeps. -/
def itemHasVid (it : Json) : Bool :=
  match itemVid it with
  | Except.ok v => pyTruthy v
  | Except.error _ => false

/-- Building one result card from an item known to have a truthy video id
(bot.py lines 99-121).  Each `match` is one fallible step of the source,
in source order; `url` and the message content are the `f`-strings of
lines 105-106. -/
def buildCard (it vid : Json) : Except Unit Card :=
  match pyIndex it "snippet" with
  | Except.error e => Except.error e
  | Except.ok s =>
    match pyDictGet s "title" (Json.str "YouTube video") with
    | Except.error e => Except.error e
    | Except.ok title =>
      match pyDictGet s "channelTitle" (Json.str "") with
      | Except.error e => Except.error e
      | Except.ok channel =>
        match pyDictGet s "description" Json.null with
        | Except.error e => Except.error e
        | Except.ok d0 =>
          match pySlice (pyOr d0 (Json.str "")) 120 with
          | Except.error e => Except.error e
          | Except.ok desc =>
            match pyDictGet s "thumbnails" (Json.obj []) with
            | Except.error e => Except.error e
            | Except.ok thumbsOuter =>
              match pyDictGet s "thumbnails" (Json.obj []) with
              | Except.error e => Except.error e
              | Except.ok thumbsInner =>
                match pyDictGet thumbsInner "default" (Json.obj []) with
                | Except.error e => Except.error e
                | Except.ok fb =>
                  match pyDictGet thumbsOuter "medium" fb with
                  | Except.error e => Except.error e
                  | Except.ok med =>
                    match pyGetOpt med "url" with
                    | Except.error e => Except.error e
                    | Except.ok thumb =>
                      Except.ok {
                        id := vid
                        title := title
                        description := pyOr channel desc
                        thumb_url := thumb
                        input_message_text :=
                          htmlEscape (pyStr title ++ "\n" ++ ("https://youtu.be/" ++ pyStr vid))
                        parse_mode := "HTML"
                        button_text := "Open on YouTube"
                        button_url := "https://youtu.be/" ++ pyStr vid }

/-- Mapping of one raw upstream item (bot.py lines 95-121): extract
`it["id"].get("videoId")`, skip the item when that is falsy (`.ok none`,
the `continue` of line 98), otherwise build the result card; a
`KeyError`/`AttributeError`/`TypeError` raised on the way out is
`.error`. -/
def mapItem (it : Json) : Except Unit (Option Card) :=
  match itemVid it with
  | Except.error e => Except.error e
  | Except.ok vid =>
    if pyTruthy vid = false then Except.ok none
    else
      match buildCard it vid with
      | Except.error e => Except.error e
      | Except.ok c => Except.ok (some c)

/-- The `for it in items:` loop (bot.py lines 95-121), accumulating the
cards in order; a raised exception aborts the whole handler. -/
def mapResults : List Json → Except Unit (List Card)
  | [] => Except.ok []
  | it :: rest =>
    match mapItem it with
    | Except.error e => Except.error e
    | Except.ok none => mapResults rest
    | Except.ok (some c) =>
      match mapResults rest with
      | Except.ok cs => Except.ok (c :: cs)
      | Except.error e => Except.error e

/-- bot.py line 123: `encode_offset(query, next_token) if next_token else ""`. -/
def nextOffsetOf (query : String) (next_token : Json) : String :=
  if pyTruthy next_token then encodeOffsetVal query next_token else ""

/-- Everything the handler does after a successful `youtube_search` call
(bot.py lines 91-125): read `items` and `nextPageToken` off the response,
map the items, and assemble the answer with `cache_time=30`. -/
def processResponse (query : String) (data : Json) : Except Unit Answer :=
  match pyDictGet data "items" (Json.arr []) with
  | .error e => .error e
  | .ok itemsV =>
    match pyDictGet data "nextPageToken" (Json.str "") with
    | .error e => .error e
    | .ok next_token =>
      match pyIter itemsV with
      | .error e => .error e
      | .ok items =>
        match mapResults items with
        | .error e => .error e
        | .ok results =>
          .ok { results := results
                is_personal := true
                cache_time := 30
                next_offset := nextOffsetOf query next_token }

/-- bot.py lines 69-76: the continuation token for the upstream call —
decode the offset and keep the decoded `pageToken` only when the decoded
query compares equal (`==`) to the current stripped query. -/
def resolved_page_token (query offset : String) : Option Json :=
  if offset ≠ "" then
    match decode_offset offset with
    | (oq, otoken) => if pyEqStr oq query then otoken else none
  else none

/-- bot.py lines 65-125, as a pure function of the inline query's fields
and the injected upstream capability.  The first component records the
`youtube_search` calls made (query and `page_token` argument); the second
is the outcome: `.ok` an answer handed to `iq.answer`, `.error` an
uncaught exception escaping the handler. -/
def inline_query_handler (rawQuery rawOffset : Option String)
    (upstream : String → Option Json → Except Unit Json) :
    List (String × Option Json) × Except Unit Answer :=
  let query := pyStrip (rawQuery.getD "")
  let offset := rawOffset.getD ""
  let page_token := resolved_page_token query offset
  if query = "" then ([], Except.ok emptyAnswer)
  else
    match upstream query page_token with
    | Except.error _ => ([(query, page_token)], Except.ok emptyAnswer)
    | Except.ok data => ([(query, page_token)], processResponse query data)

/-- The query parameters `youtube_search` sends (bot.py lines 36-44):
`pageToken` is included only when the argument is truthy, other parameters
are always present (the credential value itself is environment state
outside the model). -/
def youtube_search_params (query : String) (page_token : Option Json)
    (max_results : Nat) : List (String × String) :=
  [("part", "snippet"), ("q", query), ("type", "video"),
   ("maxResults", toString max_results), ("key", "YOUTUBE_API_KEY")] ++
  (match page_token with
   | some t => if pyTruthy t then [("pageToken", pyStr t)] else []
   | none => [])

/-! ### Derived extraction functions and concrete fixtures -/

/-- An upstream capability that always fails (network error, non-2xx
status, or unparseable body). -/
def failUpstream : String → Option Json → Except Unit Json := fun _ _ => Except.error ()

/-- A raw upstream item with a resolvable video id and an empty snippet. -/
def plainItem : Json :=
  Json.obj [("id", Json.obj [("videoId", Json.str "v0")]), ("snippet", Json.obj [])]

/-- An upstream response with 15 id-bearing raw items and no continuation
token. -/
def response15 : Json := Json.obj [("items", Json.arr (List.replicate 15 plainItem))]

/-- An upstream response whose single raw item lacks the "id" field
entirely. -/
def responseNoId : Json := Json.obj [("items", Json.arr [Json.obj []])]

/-- A raw upstream item whose snippet title contains raw HTML. -/
def htmlItem : Json :=
  Json.obj [("id", Json.obj [("videoId", Json.str "abc")]),
    ("snippet", Json.obj [("title", Json.str "<b>hi</b>")])]

/-- The card the handler builds from `plainItem`. -/
def card0 : Card :=
  { id := Json.str "v0"
    title := Json.str "YouTube video"
    description := Json.str ""
    thumb_url := none
    input_message_text := "YouTube video\nhttps://youtu.be/v0"
    parse_mode := "HTML"
    button_text := "Open on YouTube"
    button_url := "https://youtu.be/v0" }

/-- The card the handler builds from `htmlItem`: the inserted message text
is HTML-escaped. -/
def cardHtml : Card :=
  { id := Json.str "abc"
    title := Json.str "<b>hi</b>"
    description := Json.str ""
    thumb_url := none
    input_message_text := "&lt;b&gt;hi&lt;/b&gt;\nhttps://youtu.be/abc"
    parse_mode := "HTML"
    button_text := "Open on YouTube"
    button_url := "https://youtu.be/abc" }

/-! ### Helper lemmas: strings and characters -/

/-- Rebuilding a string from its character list is the identity. -/
theorem strMk_data (s : String) : String.mk s.data = s := by
  cases s
  rfl

/-- `Char.ofNat` at a valid code point keeps its value. -/
theorem charToNat_ofNat_valid (n : Nat) (h : n.isValidChar) : (Char.ofNat n).toNat = n := by
  unfold Char.ofNat
  rw [dif_pos h]
  rfl

/-- Every character's code point avoids the surrogate range and stays
below 0x110000. -/
theorem char_toNat_valid (c : Char) :
    c.toNat < 0xd800 ∨ (0xe000 ≤ c.toNat ∧ c.toNat < 0x110000) := by
  have h := c.valid
  unfold UInt32.isValidChar Nat.isValidChar at h
  exact h

/-! ### Helper lemmas: base64 round trip -/

/-- The base64 alphabet decodes back to the index it encodes. -/
theorem b64Val_b64Char : ∀ n < 64, b64Val (b64Char n) = some n := by decide

/-- No alphabet character is the padding character. -/
theorem b64Char_ne_pad : ∀ n < 64, b64Char n ≠ '=' := by decide

/-- A valid character at quad position 0 stores its value. -/
theorem a2b_step0 (c : Char) (v : Nat) (hc : b64Val c = some v) (hne : c ≠ '=')
    (rest : List Char) (lc p : Nat) (acc : List Nat) :
    a2bBase64 (c :: rest) 0 lc p acc = a2bBase64 rest 1 v 0 acc := by
  rw [a2bBase64, if_neg hne]
  simp only [hc]
  simp

/-- A valid character at quad position 1 emits the first byte of the
quad. -/
theorem a2b_step1 (c : Char) (v : Nat) (hc : b64Val c = some v) (hne : c ≠ '=')
    (rest : List Char) (lc p : Nat) (acc : List Nat) :
    a2bBase64 (c :: rest) 1 lc p acc
      = a2bBase64 rest 2 (v % 16) 0 ((lc * 4 + v / 16) :: acc) := by
  rw [a2bBase64, if_neg hne]
  simp only [hc]
  simp

/-- A valid character at quad position 2 emits the second byte of the
quad. -/
theorem a2b_step2 (c : Char) (v : Nat) (hc : b64Val c = some v) (hne : c ≠ '=')
    (rest : List Char) (lc p : Nat) (acc : List Nat) :
    a2bBase64 (c :: rest) 2 lc p acc
      = a2bBase64 rest 3 (v % 4) 0 ((lc * 16 + v / 4) :: acc) := by
  rw [a2bBase64, if_neg hne]
  simp only [hc]
  simp

/-- A valid character at quad position 3 emits the third byte of the
quad. -/
theorem a2b_step3 (c : Char) (v : Nat) (hc : b64Val c = some v) (hne : c ≠ '=')
    (rest : List Char) (lc p : Nat) (acc : List Nat) :
    a2bBase64 (c :: rest) 3 lc p acc
      = a2bBase64 rest 0 0 0 ((lc * 64 + v) :: acc) := by
  rw [a2bBase64, if_neg hne]
  simp only [hc]
  simp

/-- Terminal `==` after a two-character group returns the emitted
bytes. -/
theorem a2b_pad2 (lc : Nat) (acc : List Nat) :
    a2bBase64 ['=', '='] 2 lc 0 acc = some acc.reverse := rfl

/-- Terminal `=` after a three-character group returns the emitted
bytes. -/
theorem a2b_pad1 (lc : Nat) (acc : List Nat) :
    a2bBase64 ['='] 3 lc 0 acc = some acc.reverse := rfl

/-- The scanner inverts `b64EncodeBytes` from any accumulator:
canonical encoder output is alphabet quads with padding only at the very
end, so the scanner walks it without ever skipping a character. -/
theorem a2bBase64_encode (l : List Nat) (h : ∀ b ∈ l, b < 256) :
    ∀ acc, a2bBase64 (b64EncodeBytes l) 0 0 0 acc = some (acc.reverse ++ l) := by
  induction l using b64EncodeBytes.induct with
  | case1 =>
    intro acc
    simp [b64EncodeBytes, a2bBase64]
  | case2 b1 =>
    have hb1 : b1 < 256 := h b1 (by simp)
    intro acc
    simp only [b64EncodeBytes]
    rw [a2b_step0 _ _ (b64Val_b64Char (b1 / 4) (by omega)) (b64Char_ne_pad (b1 / 4) (by omega))]
    rw [a2b_step1 _ _ (b64Val_b64Char (b1 % 4 * 16) (by omega))
      (b64Char_ne_pad (b1 % 4 * 16) (by omega))]
    rw [a2b_pad2]
    have e1 : b1 / 4 * 4 + b1 % 4 * 16 / 16 = b1 := by omega
    rw [e1]
    simp
  | case3 b1 b2 =>
    have hb1 : b1 < 256 := h b1 (by simp)
    have hb2 : b2 < 256 := h b2 (by simp)
    intro acc
    simp only [b64EncodeBytes]
    rw [a2b_step0 _ _ (b64Val_b64Char (b1 / 4) (by omega)) (b64Char_ne_pad (b1 / 4) (by omega))]
    rw [a2b_step1 _ _ (b64Val_b64Char (b1 % 4 * 16 + b2 / 16) (by omega))
      (b64Char_ne_pad (b1 % 4 * 16 + b2 / 16) (by omega))]
    rw [a2b_step2 _ _ (b64Val_b64Char (b2 % 16 * 4) (by omega))
      (b64Char_ne_pad (b2 % 16 * 4) (by omega))]
    rw [a2b_pad1]
    have e1 : b1 / 4 * 4 + (b1 % 4 * 16 + b2 / 16) / 16 = b1 := by omega
    have e2 : (b1 % 4 * 16 + b2 / 16) % 16 * 16 + b2 % 16 * 4 / 4 = b2 := by omega
    rw [e1, e2]
    simp
  | case4 b1 b2 b3 rest ih =>
    have hb1 : b1 < 256 := h b1 (by simp)
    have hb2 : b2 < 256 := h b2 (by simp)
    have hb3 : b3 < 256 := h b3 (by simp)
    have hrest : ∀ b ∈ rest, b < 256 := fun b hb => h b (by simp [hb])
    intro acc
    simp only [b64EncodeBytes]
    rw [a2b_step0 _ _ (b64Val_b64Char (b1 / 4) (by omega)) (b64Char_ne_pad (b1 / 4) (by omega))]
    rw [a2b_step1 _ _ (b64Val_b64Char (b1 % 4 * 16 + b2 / 16) (by omega))
      (b64Char_ne_pad (b1 % 4 * 16 + b2 / 16) (by omega))]
    rw [a2b_step2 _ _ (b64Val_b64Char (b2 % 16 * 4 + b3 / 64) (by omega))
      (b64Char_ne_pad (b2 % 16 * 4 + b3 / 64) (by omega))]
    rw [a2b_step3 _ _ (b64Val_b64Char (b3 % 64) (by omega))
      (b64Char_ne_pad (b3 % 64) (by omega))]
    have e1 : b1 / 4 * 4 + (b1 % 4 * 16 + b2 / 16) / 16 = b1 := by omega
    have e2 : (b1 % 4 * 16 + b2 / 16) % 16 * 16 + (b2 % 16 * 4 + b3 / 64) / 4 = b2 := by omega
    have e3 : (b2 % 16 * 4 + b3 / 64) % 4 * 64 + b3 % 64 = b3 := by omega
    rw [e1, e2, e3]
    rw [ih hrest]
    simp

/-- `urlsafe_b64decode` inverts `urlsafe_b64encode` on any byte list. -/
theorem b64DecodeStr_encode (l : List Nat) (h : ∀ b ∈ l, b < 256) :
    b64DecodeStr (String.mk (b64EncodeBytes l)) = some l := by
  unfold b64DecodeStr
  rw [show (String.mk (b64EncodeBytes l)).data = b64EncodeBytes l from rfl]
  rw [a2bBase64_encode l h []]
  rfl

/-! ### Helper lemmas: UTF-8 on ASCII -/

/-- ASCII characters encode as their single code point. -/
theorem utf8EncodeChar_ascii (c : Char) (h : c.toNat < 128) :
    utf8EncodeChar c = [c.toNat] := by
  unfold utf8EncodeChar
  rw [if_pos h]

/-- An ASCII string's UTF-8 bytes are its code points. -/
theorem utf8Encode_ascii (l : List Char) (h : ∀ c ∈ l, c.toNat < 128) :
    utf8Encode l = l.map Char.toNat := by
  induction l with
  | nil => rfl
  | cons c rest ih =>
    rw [show utf8Encode (c :: rest) = utf8EncodeChar c ++ utf8Encode rest from rfl]
    rw [utf8EncodeChar_ascii c (h c (by simp)), ih (fun x hx => h x (by simp [hx]))]
    rfl


/-- Decoding ASCII code points restores the characters (loop form). -/
theorem utf8Loop_ascii (l : List Char) : ∀ (fuel : Nat), (∀ c ∈ l, c.toNat < 128) →
    l.length < fuel → utf8Loop fuel (l.map Char.toNat) = some l := by
  induction l with
  | nil =>
    intro fuel _ hf
    obtain ⟨f, rfl⟩ : ∃ f, fuel = f + 1 := ⟨fuel - 1, by omega⟩
    rfl
  | cons c rest ih =>
    intro fuel h hf
    obtain ⟨f, rfl⟩ : ∃ f, fuel = f + 1 := ⟨fuel - 1, by omega⟩
    have hc : c.toNat < 128 := h c (by simp)
    have hstep : utf8Step (c.toNat :: rest.map Char.toNat)
        = some (Char.ofNat c.toNat, rest.map Char.toNat) := by
      simp only [utf8Step]
      rw [if_pos (by omega : c.toNat < 0x80)]
    have hih := ih f (fun x hx => h x (by simp [hx])) (by simp at hf ⊢; omega)
    simp only [List.map_cons, utf8Loop, hstep, hih, Char.ofNat_toNat]

/-- Decoding ASCII code points restores the characters. -/
theorem utf8Decode_ascii (l : List Char) (h : ∀ c ∈ l, c.toNat < 128) :
    utf8Decode (l.map Char.toNat) = some l := by
  unfold utf8Decode
  exact utf8Loop_ascii l _ h (by simp)

/-! ### Helper lemmas: the dumped payload is ASCII -/

/-- Hex digits are ASCII. -/
theorem hexDig_ascii : ∀ k < 16, (hexDig k).toNat < 128 := by decide

/-- `hex4` output is ASCII. -/
theorem hex4_ascii (n : Nat) : ∀ x ∈ hex4 n, x.toNat < 128 := by
  intro x hx
  simp only [hex4, List.mem_cons, List.not_mem_nil, or_false] at hx
  rcases hx with rfl | rfl | rfl | rfl <;> exact hexDig_ascii _ (by omega)

/-- Each character's `json.dumps` escape is ASCII. -/
theorem escChar_ascii (c : Char) : ∀ x ∈ escChar c, x.toNat < 128 := by
  unfold escChar
  split_ifs with hbs hq hpr ht hn hr hb8 hf12 hlt <;> intro x hx
  · fin_cases hx <;> decide
  · fin_cases hx <;> decide
  · simp only [List.mem_singleton] at hx
    subst hx
    omega
  · fin_cases hx <;> decide
  · fin_cases hx <;> decide
  · fin_cases hx <;> decide
  · fin_cases hx <;> decide
  · fin_cases hx <;> decide
  · rcases List.mem_append.mp hx with hx | hx
    · fin_cases hx <;> decide
    · exact hex4_ascii _ x hx
  · simp only [List.append_assoc] at hx
    rcases List.mem_append.mp hx with hx | hx
    · fin_cases hx <;> decide
    · rcases List.mem_append.mp hx with hx | hx
      · exact hex4_ascii _ x hx
      · rcases List.mem_append.mp hx with hx | hx
        · fin_cases hx <;> decide
        · exact hex4_ascii _ x hx

/-- `escList` output is ASCII. -/
theorem escList_ascii (l : List Char) : ∀ x ∈ escList l, x.toNat < 128 := by
  induction l with
  | nil => intro x hx; simp [escList] at hx
  | cons c rest ih =>
    intro x hx
    rw [show escList (c :: rest) = escChar c ++ escList rest from rfl] at hx
    rcases List.mem_append.mp hx with hx | hx
    · exact escChar_ascii c x hx
    · exact ih x hx

/-- `dumpStr` output is ASCII. -/
theorem dumpStr_ascii (s : String) : ∀ x ∈ (dumpStr s).data, x.toNat < 128 := by
  intro x hx
  rw [show (dumpStr s).data = '"' :: (escList s.data ++ ['"']) from rfl] at hx
  rcases List.mem_cons.mp hx with rfl | hx
  · decide
  · rcases List.mem_append.mp hx with hx | hx
    · exact escList_ascii _ x hx
    · simp only [List.mem_singleton] at hx
      subst hx
      decide

/-- The dumped cursor payload for a string token is ASCII. -/
theorem payloadDump_str_ascii (q T : String) :
    ∀ x ∈ (payloadDump q (Json.str T)).data, x.toNat < 128 := by
  intro x hx
  unfold payloadDump at hx
  rw [show dumpVal (Json.str T) = dumpStr T from rfl] at hx
  simp only [String.data_append, List.mem_append] at hx
  rcases hx with (((hx | hx) | hx) | hx) | hx
  · fin_cases hx <;> decide
  · exact dumpStr_ascii q x hx
  · fin_cases hx <;> decide
  · exact dumpStr_ascii T x hx
  · fin_cases hx
    decide


/-! ### Helper lemmas: `json.loads` inverts `json.dumps` on the payload -/

/-- Parsing the four hex digits `"%04x"` printed restores the value. -/
theorem hexVal_hexDig : ∀ k < 16, hexVal (hexDig k) = some k := by decide

/-- `hex4Val` inverts `hex4`, digit-wise form. -/
theorem hex4Val_hex4 (n : Nat) (h : n < 0x10000) :
    hex4Val (hexDig (n / 4096 % 16)) (hexDig (n / 256 % 16))
      (hexDig (n / 16 % 16)) (hexDig (n % 16)) = some n := by
  unfold hex4Val
  rw [hexVal_hexDig _ (by omega), hexVal_hexDig _ (by omega),
    hexVal_hexDig _ (by omega), hexVal_hexDig _ (by omega)]
  simp only [Option.some.injEq]
  omega

/-- Unfolding of `strStep` at a `\uXXXX` escape. -/
theorem strStep_u (h1 h2 h3 h4 : Char) (cs3 : List Char) :
    strStep ('\\' :: 'u' :: h1 :: h2 :: h3 :: h4 :: cs3) =
      (match hex4Val h1 h2 h3 h4 with
      | none => none
      | some n =>
        if 0xd800 ≤ n ∧ n < 0xdc00 then
          match cs3 with
          | c5 :: c6 :: g1 :: g2 :: g3 :: g4 :: cs4 =>
            if c5 = '\\' ∧ c6 = 'u' then
              match hex4Val g1 g2 g3 g4 with
              | none => none
              | some m =>
                if 0xdc00 ≤ m ∧ m < 0xe000 then
                  some (some (Char.ofNat (0x10000 + (n - 0xd800) * 0x400 + (m - 0xdc00))), cs4)
                else none
            else none
          | _ => none
        else if 0xdc00 ≤ n ∧ n < 0xe000 then none
        else some (some (Char.ofNat n), cs3)) := rfl

/-- One scan step undoes one character's `json.dumps` escape. -/
theorem strStep_escChar (c : Char) (tail : List Char) :
    strStep (escChar c ++ tail) = some (some c, tail) := by
  have hval := char_toNat_valid c
  unfold escChar
  split_ifs with hbs hq hpr ht hn hr hb8 hf12 hlt
  · subst hbs
    rfl
  · subst hq
    rfl
  · simp only [List.cons_append, List.nil_append]
    simp only [strStep]
    rw [if_neg hq, if_neg hbs, if_neg (by omega)]
  · subst ht
    rfl
  · subst hn
    rfl
  · subst hr
    rfl
  · have hc : Char.ofNat 8 = c := by rw [← hb8, Char.ofNat_toNat]
    rw [show strStep (['\\', 'b'] ++ tail) = some (some (Char.ofNat 8), tail) from rfl, hc]
  · have hc : Char.ofNat 12 = c := by rw [← hf12, Char.ofNat_toNat]
    rw [show strStep (['\\', 'f'] ++ tail) = some (some (Char.ofNat 12), tail) from rfl, hc]
  · have hv := hex4Val_hex4 c.toNat (by omega)
    simp only [hex4, List.cons_append, List.nil_append]
    rw [strStep_u]
    simp only [hv]
    rw [if_neg (by omega), if_neg (by omega), Char.ofNat_toNat]
  · have hhi := hex4Val_hex4 (0xd800 + (c.toNat - 0x10000) / 0x400) (by omega)
    have hlo := hex4Val_hex4 (0xdc00 + (c.toNat - 0x10000) % 0x400) (by omega)
    simp only [hex4, List.cons_append, List.nil_append, List.append_assoc]
    rw [strStep_u]
    simp only [hhi]
    rw [if_pos (show 0xd800 ≤ 0xd800 + (c.toNat - 0x10000) / 0x400
        ∧ 0xd800 + (c.toNat - 0x10000) / 0x400 < 0xdc00 from by omega)]
    rw [if_pos (And.intro trivial trivial)]
    simp only [hlo]
    rw [if_pos (show 0xdc00 ≤ 0xdc00 + (c.toNat - 0x10000) % 0x400
        ∧ 0xdc00 + (c.toNat - 0x10000) % 0x400 < 0xe000 from by omega)]
    rw [show 0x10000 + (0xd800 + (c.toNat - 0x10000) / 0x400 - 0xd800) * 0x400
        + (0xdc00 + (c.toNat - 0x10000) % 0x400 - 0xdc00) = c.toNat from by omega]
    rw [Char.ofNat_toNat]

/-- Escaping never shortens a string. -/
theorem escList_length_le (l : List Char) : l.length ≤ (escList l).length := by
  induction l with
  | nil => simp [escList]
  | cons c rest ih =>
    have hpos : 0 < (escChar c).length := by
      unfold escChar
      split_ifs <;> simp
    rw [show escList (c :: rest) = escChar c ++ escList rest from rfl]
    simp only [List.length_append, List.length_cons]
    omega

/-- The string-body scan loop undoes `escList` (given enough fuel). -/
theorem parseStrLoop_escList (l : List Char) : ∀ (fuel : Nat) (rest : List Char),
    l.length < fuel → parseStrLoop fuel (escList l ++ '"' :: rest) = some (l, rest) := by
  induction l with
  | nil =>
    intro fuel rest hf
    obtain ⟨f, rfl⟩ : ∃ f, fuel = f + 1 := ⟨fuel - 1, by omega⟩
    rfl
  | cons c l ih =>
    intro fuel rest hf
    obtain ⟨f, rfl⟩ : ∃ f, fuel = f + 1 := ⟨fuel - 1, by omega⟩
    rw [show escList (c :: l) ++ '"' :: rest = escChar c ++ (escList l ++ '"' :: rest) from by
      rw [show escList (c :: l) = escChar c ++ escList l from rfl, List.append_assoc]]
    simp only [parseStrLoop, strStep_escChar]
    rw [ih f rest (by simp at hf; omega)]
    rfl

/-- The string-body parser undoes `escList`. -/
theorem parseStrBody_escList (l rest : List Char) :
    parseStrBody (escList l ++ '"' :: rest) = some (l, rest) := by
  unfold parseStrBody
  apply parseStrLoop_escList
  simp only [List.length_append, List.length_cons]
  have := escList_length_le l
  omega

/-- `parseVal` on a space followed by a dumped string literal. -/
theorem parseVal_strVal (g : Nat) (l z : List Char) :
    parseVal g (' ' :: '"' :: (escList l ++ '"' :: z)) = some (Json.str (String.mk l), z) := by
  rw [parseVal]
  rw [show skipWs (' ' :: '"' :: (escList l ++ '"' :: z)) = '"' :: (escList l ++ '"' :: z) from rfl]
  simp only [reduceIte]
  rw [parseStrBody_escList]

/-- Parsing the second member, `"pageToken": "<esc T>"`, up to the closing
brace. -/
theorem parseObjMembers_ptoken (g : Nat) (T : String) :
    parseObjMembers (g + 1) ('"' :: 'p' :: 'a' :: 'g' :: 'e' :: 'T' :: 'o' :: 'k' :: 'e' :: 'n'
      :: '"' :: ':' :: ' ' :: '"' :: (escList T.data ++ ('"' :: '\x7d' :: [])))
      = some (Json.obj [("pageToken", Json.str T)], []) := by
  have hkey : ∀ z : List Char, parseStrBody ('p' :: 'a' :: 'g' :: 'e' :: 'T' :: 'o' :: 'k' :: 'e' :: 'n' :: '"' :: z)
      = some (['p', 'a', 'g', 'e', 'T', 'o', 'k', 'e', 'n'], z) :=
    fun z => parseStrBody_escList ("pageToken".data) z
  rw [parseObjMembers]
  rw [show skipWs ('"' :: 'p' :: 'a' :: 'g' :: 'e' :: 'T' :: 'o' :: 'k' :: 'e' :: 'n'
      :: '"' :: ':' :: ' ' :: '"' :: (escList T.data ++ ('"' :: '\x7d' :: [])))
    = '"' :: 'p' :: 'a' :: 'g' :: 'e' :: 'T' :: 'o' :: 'k' :: 'e' :: 'n'
      :: '"' :: ':' :: ' ' :: '"' :: (escList T.data ++ ('"' :: '\x7d' :: [])) from rfl]
  simp only [reduceIte, hkey]
  rw [show skipWs (':' :: ' ' :: '"' :: (escList T.data ++ ('"' :: '\x7d' :: [])))
    = ':' :: ' ' :: '"' :: (escList T.data ++ ('"' :: '\x7d' :: [])) from rfl]
  simp only [reduceIte, parseVal_strVal]
  rw [if_neg (show ¬ ('"' = '\x7d') from by decide)]
  rw [show skipWs ['\x7d'] = ['\x7d'] from rfl]
  simp only [reduceIte, strMk_data]

/-- Parsing both members of the dumped payload object. -/
theorem parseObjMembers_payload (f : Nat) (Q T : String) :
    parseObjMembers (f + 2)
      ('"' :: 'q' :: '"' :: ':' :: ' ' :: '"' :: (escList Q.data ++
        ('"' :: ',' :: ' ' :: '"' :: 'p' :: 'a' :: 'g' :: 'e' :: 'T' :: 'o' :: 'k' :: 'e' :: 'n' :: '"' :: ':' :: ' ' :: '"' ::
          (escList T.data ++ ('"' :: '\x7d' :: [])))))
      = some (Json.obj [("q", Json.str Q), ("pageToken", Json.str T)], []) := by
  have hkey : ∀ z : List Char, parseStrBody ('q' :: '"' :: z) = some (['q'], z) :=
    fun z => parseStrBody_escList ("q".data) z
  have hquote : ∀ z : List Char, skipWs ('"' :: z) = '"' :: z := fun _ => rfl
  have hcolon : ∀ z : List Char, skipWs (':' :: z) = ':' :: z := fun _ => rfl
  have hcomma : ∀ z : List Char, skipWs (',' :: z) = ',' :: z := fun _ => rfl
  have hspace : ∀ z : List Char, skipWs (' ' :: z) = skipWs z := fun _ => rfl
  rw [parseObjMembers]
  simp only [hquote, hcolon, hcomma, hspace, reduceIte, hkey, parseVal_strVal,
    parseObjMembers_ptoken, strMk_data]
  rw [if_neg (show ¬ (('"' : Char) = '\x7d') from by decide)]
  rw [if_neg (show ¬ ((',' : Char) = '\x7d') from by decide)]

/-- Parsing the whole dumped payload object. -/
theorem parseVal_payload (f : Nat) (Q T : String) :
    parseVal (f + 3)
      ('\x7b' :: '"' :: 'q' :: '"' :: ':' :: ' ' :: '"' :: (escList Q.data ++
        ('"' :: ',' :: ' ' :: '"' :: 'p' :: 'a' :: 'g' :: 'e' :: 'T' :: 'o' :: 'k' :: 'e' :: 'n' :: '"' :: ':' :: ' ' :: '"' ::
          (escList T.data ++ ('"' :: '\x7d' :: [])))))
      = some (Json.obj [("q", Json.str Q), ("pageToken", Json.str T)], []) := by
  rw [show parseVal (f + 3)
      ('\x7b' :: '"' :: 'q' :: '"' :: ':' :: ' ' :: '"' :: (escList Q.data ++
        ('"' :: ',' :: ' ' :: '"' :: 'p' :: 'a' :: 'g' :: 'e' :: 'T' :: 'o' :: 'k' :: 'e' :: 'n' :: '"' :: ':' :: ' ' :: '"' ::
          (escList T.data ++ ('"' :: '\x7d' :: [])))))
    = parseObjMembers (f + 2)
      ('"' :: 'q' :: '"' :: ':' :: ' ' :: '"' :: (escList Q.data ++
        ('"' :: ',' :: ' ' :: '"' :: 'p' :: 'a' :: 'g' :: 'e' :: 'T' :: 'o' :: 'k' :: 'e' :: 'n' :: '"' :: ':' :: ' ' :: '"' ::
          (escList T.data ++ ('"' :: '\x7d' :: []))))) from rfl]
  exact parseObjMembers_payload f Q T

/-- The character list of the dumped payload, in parser-ready form. -/
theorem payloadDump_data (Q T : String) :
    (payloadDump Q (Json.str T)).data
      = '\x7b' :: '"' :: 'q' :: '"' :: ':' :: ' ' :: '"' :: (escList Q.data ++
        ('"' :: ',' :: ' ' :: '"' :: 'p' :: 'a' :: 'g' :: 'e' :: 'T' :: 'o' :: 'k' :: 'e' :: 'n' :: '"' :: ':' :: ' ' :: '"' ::
          (escList T.data ++ ('"' :: '\x7d' :: [])))) := by
  unfold payloadDump
  rw [show dumpVal (Json.str T) = dumpStr T from rfl]
  unfold dumpStr
  simp only [String.data_append]
  simp only [List.cons_append, List.append_assoc, List.nil_append, List.singleton_append]

/-- `json.loads` inverts `json.dumps` on the cursor payload. -/
theorem jsonLoads_payload (Q T : String) :
    jsonLoads (payloadDump Q (Json.str T))
      = some (Json.obj [("q", Json.str Q), ("pageToken", Json.str T)]) := by
  have hd := payloadDump_data Q T
  have hlen : 2 ≤ (payloadDump Q (Json.str T)).length := by
    rw [show (payloadDump Q (Json.str T)).length
      = (payloadDump Q (Json.str T)).data.length from rfl, hd]
    simp
  unfold jsonLoads
  rw [show (payloadDump Q (Json.str T)).length + 1
      = ((payloadDump Q (Json.str T)).length - 2) + 3 from by omega]
  rw [hd, parseVal_payload]
  rfl

/-- The full fallible pipeline of `decode_offset` inverts the encoding
pipeline of `encode_offset`. -/
theorem cursorParse_encode (Q T : String) :
    cursorParse (encodeOffsetVal Q (Json.str T))
      = some (Json.obj [("q", Json.str Q), ("pageToken", Json.str T)]) := by
  have hascii := payloadDump_str_ascii Q T
  have hb : ∀ b ∈ (payloadDump Q (Json.str T)).data.map Char.toNat, b < 256 := by
    intro b hb
    obtain ⟨c, hc, rfl⟩ := List.mem_map.mp hb
    have := hascii c hc
    omega
  unfold cursorParse encodeOffsetVal
  rw [utf8Encode_ascii _ hascii]
  simp only [b64DecodeStr_encode _ hb, utf8Decode_ascii _ hascii, strMk_data, jsonLoads_payload]

/-! ### Helper lemmas: handler-side facts -/

/-- Python `==` against a string is true exactly for an equal string. -/
theorem pyEqStr_eq_true (v : Option Json) (s : String) :
    pyEqStr v s = true ↔ v = some (Json.str s) := by
  unfold pyEqStr
  cases v with
  | none => simp
  | some j => cases j <;> simp

/-- Stripping a whitespace-only string gives the empty string. -/
theorem pyStrip_all_ws (s : String) (h : s.data.all pyWsChar = true) : pyStrip s = "" := by
  unfold pyStrip
  have h1 : s.data.dropWhile pyWsChar = [] := by
    rw [List.dropWhile_eq_nil_iff]
    intro x hx
    exact List.all_eq_true.mp h x hx
  rw [h1]
  rfl

/-- UTF-8 encoding of a non-empty string is non-empty. -/
theorem utf8Encode_ne_nil (l : List Char) (h : l ≠ []) : utf8Encode l ≠ [] := by
  cases l with
  | nil => exact absurd rfl h
  | cons c rest =>
    rw [show utf8Encode (c :: rest) = utf8EncodeChar c ++ utf8Encode rest from rfl]
    have : utf8EncodeChar c ≠ [] := by
      unfold utf8EncodeChar
      split_ifs <;> simp
    simp [List.append_eq_nil]
    intro hc
    exact absurd hc this

/-- Base64 encoding of a non-empty byte list is non-empty. -/
theorem b64EncodeBytes_ne_nil (l : List Nat) (h : l ≠ []) : b64EncodeBytes l ≠ [] := by
  match l with
  | [] => exact absurd rfl h
  | [b1] => simp [b64EncodeBytes]
  | [b1, b2] => simp [b64EncodeBytes]
  | b1 :: b2 :: b3 :: rest => simp [b64EncodeBytes]

/-- The dumped payload is never the empty string. -/
theorem payloadDump_data_ne_nil (q : String) (tok : Json) : (payloadDump q tok).data ≠ [] := by
  unfold payloadDump
  simp only [String.data_append]
  simp

/-- `encode_offset` never returns the empty string, token present or
absent. -/
theorem encode_offset_ne_empty (q : String) (t : Option String) : encode_offset q t ≠ "" := by
  unfold encode_offset encodeOffsetVal
  intro hcontra
  have hda : (String.mk (b64EncodeBytes (utf8Encode (payloadDump q (optTokenJson t)).data))).data
      = ("" : String).data := by rw [hcontra]
  rw [show (String.mk (b64EncodeBytes (utf8Encode (payloadDump q (optTokenJson t)).data))).data
      = b64EncodeBytes (utf8Encode (payloadDump q (optTokenJson t)).data) from rfl] at hda
  rw [show ("" : String).data = [] from rfl] at hda
  exact b64EncodeBytes_ne_nil _
    (utf8Encode_ne_nil _ (payloadDump_data_ne_nil q (optTokenJson t))) hda

/-- No `html.escape` output chunk contains a raw `<`. -/
theorem escHtmlChar_no_lt (c : Char) : '<' ∉ escHtmlChar c := by
  unfold escHtmlChar
  split_ifs with h1 h2 h3 h4 h5
  · decide
  · decide
  · decide
  · decide
  · decide
  · simp only [List.mem_singleton]
    intro hx
    exact h2 hx.symm

/-- `html.escape` output never contains a raw `<`: no markup can be
injected through it. -/
theorem htmlEscape_no_lt (s : String) : '<' ∉ (htmlEscape s).data := by
  rw [show (htmlEscape s).data = htmlEscapeList s.data from rfl]
  induction s.data with
  | nil => simp [htmlEscapeList]
  | cons c rest ih =>
    rw [show htmlEscapeList (c :: rest) = escHtmlChar c ++ htmlEscapeList rest from rfl]
    intro hmem
    rcases List.mem_append.mp hmem with hx | hx
    · exact escHtmlChar_no_lt c hx
    · exact ih hx

/-- An item is skipped exactly when its id extraction succeeded with a
falsy value. -/
theorem mapItem_ok_none (it : Json) (h : mapItem it = Except.ok none) :
    ∃ v, itemVid it = Except.ok v ∧ pyTruthy v = false := by
  unfold mapItem at h
  cases hv : itemVid it with
  | error e => simp [hv] at h
  | ok vid =>
    simp only [hv] at h
    by_cases htr : pyTruthy vid = false
    · exact ⟨vid, rfl, htr⟩
    · rw [if_neg htr] at h
      cases hbc : buildCard it vid with
      | error e => simp [hbc] at h
      | ok c => simp [hbc] at h

/-- What a successfully built card contains, step by step. -/
theorem buildCard_ok (it vid : Json) (c : Card) (h : buildCard it vid = Except.ok c) :
    c.id = vid
    ∧ (∃ s channel d0 desc,
        pyIndex it "snippet" = Except.ok s
        ∧ pyDictGet s "title" (Json.str "YouTube video") = Except.ok c.title
        ∧ pyDictGet s "channelTitle" (Json.str "") = Except.ok channel
        ∧ pyDictGet s "description" Json.null = Except.ok d0
        ∧ pySlice (pyOr d0 (Json.str "")) 120 = Except.ok desc
        ∧ c.description = pyOr channel desc)
    ∧ c.input_message_text
        = htmlEscape (pyStr c.title ++ "\n" ++ ("https://youtu.be/" ++ pyStr c.id))
    ∧ c.parse_mode = "HTML" := by
  unfold buildCard at h
  cases h1 : pyIndex it "snippet" with
  | error e => simp [h1] at h
  | ok s =>
  simp only [h1] at h
  cases h2 : pyDictGet s "title" (Json.str "YouTube video") with
  | error e => simp [h2] at h
  | ok title =>
  simp only [h2] at h
  cases h3 : pyDictGet s "channelTitle" (Json.str "") with
  | error e => simp [h3] at h
  | ok channel =>
  simp only [h3] at h
  cases h4 : pyDictGet s "description" Json.null with
  | error e => simp [h4] at h
  | ok d0 =>
  simp only [h4] at h
  cases h5 : pySlice (pyOr d0 (Json.str "")) 120 with
  | error e => simp [h5] at h
  | ok desc =>
  simp only [h5] at h
  cases h6 : pyDictGet s "thumbnails" (Json.obj []) with
  | error e => simp [h6] at h
  | ok thumbsOuter =>
  simp only [h6] at h
  cases h8 : pyDictGet thumbsOuter "default" (Json.obj []) with
  | error e => simp [h8] at h
  | ok fb =>
  simp only [h8] at h
  cases h9 : pyDictGet thumbsOuter "medium" fb with
  | error e => simp [h9] at h
  | ok med =>
  simp only [h9] at h
  cases h10 : pyGetOpt med "url" with
  | error e => simp [h10] at h
  | ok thumb =>
  simp only [h10, Except.ok.injEq] at h
  subst h
  exact ⟨rfl, ⟨s, channel, d0, desc, rfl, h2, h3, h4, h5, rfl⟩, rfl, rfl⟩

/-- A mapped card comes from a successful, truthy id extraction and a
successful card build. -/
theorem mapItem_ok_some (it : Json) (c : Card) (h : mapItem it = Except.ok (some c)) :
    itemVid it = Except.ok c.id ∧ pyTruthy c.id = true ∧ buildCard it c.id = Except.ok c := by
  unfold mapItem at h
  cases hv : itemVid it with
  | error e => simp [hv] at h
  | ok vid =>
    simp only [hv] at h
    by_cases htr : pyTruthy vid = false
    · simp [htr] at h
    · rw [if_neg htr] at h
      cases hbc : buildCard it vid with
      | error e => simp [hbc] at h
      | ok c' =>
        simp only [hbc, Except.ok.injEq, Option.some.injEq] at h
        subst h
        have hid : c'.id = vid := (buildCard_ok it vid c' hbc).1
        rw [hid]
        exact ⟨rfl, by simp at htr; exact htr, hbc⟩

/-- The mapping loop keeps exactly the items with a truthy video id, and
every produced card carries such an id from one of the items. -/
theorem mapResults_spec (items : List Json) (cards : List Card)
    (h : mapResults items = Except.ok cards) :
    cards.length = items.countP itemHasVid
    ∧ ∀ c ∈ cards, ∃ it ∈ items, itemVid it = Except.ok c.id ∧ pyTruthy c.id = true := by
  induction items generalizing cards with
  | nil =>
    unfold mapResults at h
    simp only [Except.ok.injEq] at h
    subst h
    simp
  | cons it rest ih =>
    unfold mapResults at h
    cases hmi : mapItem it with
    | error e => simp [hmi] at h
    | ok oc =>
      simp only [hmi] at h
      cases oc with
      | none =>
        obtain ⟨v, hv, hf⟩ := mapItem_ok_none it hmi
        have hhv : itemHasVid it = false := by
          unfold itemHasVid
          simp only [hv]
          exact hf
        obtain ⟨hlen, hmem⟩ := ih cards h
        constructor
        · rw [List.countP_cons, hhv, hlen]
          simp
        · intro c hc
          obtain ⟨it', hit', h1, h2⟩ := hmem c hc
          exact ⟨it', List.mem_cons_of_mem _ hit', h1, h2⟩
      | some c0 =>
        cases hmr : mapResults rest with
        | error e => simp [hmr] at h
        | ok cs =>
          simp only [hmr, Except.ok.injEq] at h
          subst h
          obtain ⟨hvid, htr, hbc⟩ := mapItem_ok_some it c0 hmi
          have hhv : itemHasVid it = true := by
            unfold itemHasVid
            simp only [hvid]
            exact htr
          obtain ⟨hlen, hmem⟩ := ih cs hmr
          constructor
          · rw [List.length_cons, List.countP_cons, hhv, hlen]
            simp
          · intro c hc
            rcases List.mem_cons.mp hc with rfl | hc
            · exact ⟨it, List.mem_cons_self _ _, hvid, htr⟩
            · obtain ⟨it', hit', h1, h2⟩ := hmem c hc
              exact ⟨it', List.mem_cons_of_mem _ hit', h1, h2⟩

/-- `dict.get` on an object, in lookup form. -/
theorem pyDictGet_obj (kvs : List (String × Json)) (k : String) (d : Json) :
    pyDictGet (Json.obj kvs) k d = Except.ok ((lookupLast kvs k).getD d) := rfl


/-! ### The claims -/

/-- C1 (confirmed): cursor codec round-trip — for every non-empty query
string `Q` and every token string `T` (unicode and special characters
included), `decode_offset (encode_offset Q T)` returns exactly `(Q, T)`.
(The round trip in fact holds for every `Q`; the claim's non-emptiness
restriction is carried as a hypothesis.) -/
theorem C1_cursor_roundtrip (Q T : String) (_hQ : Q ≠ "") :
    decode_offset (encode_offset Q (some T)) = (some (Json.str Q), some (Json.str T)) := by
  unfold decode_offset encode_offset
  rw [show optTokenJson (some T) = Json.str T from rfl]
  rw [cursorParse_encode]
  rfl

/-- Witness for C1 at `Q = "a"`, `T = "b"`. -/
theorem C1_cursor_roundtrip_witness :
    ("a" : String) ≠ "" ∧
      decode_offset (encode_offset "a" (some "b")) = (some (Json.str "a"), some (Json.str "b")) :=
  ⟨by decide, C1_cursor_roundtrip "a" "b" (by decide)⟩

/-- C3 counterexample: the claim `encode_offset(Q, None) = ""` is false —
`encode_offset "a" none` is the (non-empty) base64 encoding of the payload
`\x7b"q": "a", "pageToken": null\x7d` (bot.py lines 51-53 serialize the
`None` token as JSON null rather than returning the empty string). -/
theorem C3_counterexample : encode_offset "a" none ≠ "" := by decide

/-- C3 (amended): `encode_offset` itself never returns the empty string,
token present or absent; the platform's empty-string convention for "no
more pages" is implemented at the handler's call site (bot.py line 123),
which emits `""` without calling `encode_offset` whenever the upstream
token is falsy. -/
theorem C3_absent_token (q : String) (tok : Json) :
    (pyTruthy tok = false → nextOffsetOf q tok = "") ∧ encode_offset q none ≠ "" := by
  constructor
  · intro h
    unfold nextOffsetOf
    rw [h]
    rfl
  · exact encode_offset_ne_empty q none

/-- Witness for C3 at `q = "cats"` with the falsy token `""`. -/
theorem C3_absent_token_witness :
    pyTruthy (Json.str "") = false
      ∧ nextOffsetOf "cats" (Json.str "") = ""
      ∧ encode_offset "cats" none ≠ "" :=
  ⟨by decide, (C3_absent_token "cats" (Json.str "")).1 (by decide),
    (C3_absent_token "cats" (Json.str "")).2⟩

/-- C4 counterexample: the claim "decode returns (absent, absent) on all
malformed inputs (including valid encodings of a payload of the wrong
shape)" is false — the valid base64 encoding of the wrong-shape payload
`\x7b"pageToken": "T"\x7d` (no "q" field) decodes to
`(absent, "T")`, not `(absent, absent)`: `obj.get` (bot.py line 60) reads
each field independently. -/
theorem C4_counterexample :
    decode_offset (String.mk (b64EncodeBytes (utf8Encode ("\x7b\"pageToken\": \"T\"\x7d").data)))
      = (none, some (Json.str "T")) := rfl

/-- C4 (amended): `decode_offset` never raises (it is a total function),
and on every structural failure — any input whose base64 / UTF-8 / JSON
pipeline does not produce a JSON object — it returns `(absent, absent)`.
A well-formed object payload instead yields its "q" and "pageToken"
fields individually, each absent only when missing or null. -/
theorem C4_decode_robustness (s : String)
    (h : ∀ kvs, cursorParse s ≠ some (Json.obj kvs)) :
    decode_offset s = (none, none) := by
  unfold decode_offset
  cases hcp : cursorParse s with
  | none => rfl
  | some v =>
    cases v with
    | obj kvs => exact absurd hcp (h kvs)
    | null => rfl
    | bool b => rfl
    | int n => rfl
    | str s2 => rfl
    | float tok => rfl
    | arr l => rfl

/-- Witness for C4 at the non-base64 input `"!!!"`. -/
theorem C4_decode_robustness_witness :
    (∀ kvs, cursorParse "!!!" ≠ some (Json.obj kvs)) ∧ decode_offset "!!!" = (none, none) := by
  have h : ∀ kvs, cursorParse "!!!" ≠ some (Json.obj kvs) := by
    intro kvs hk
    rw [show cursorParse "!!!" = none from rfl] at hk
    exact Option.noConfusion hk
  exact ⟨h, C4_decode_robustness "!!!" h⟩

/-- C5 (confirmed): failure isolation — for every request with a
non-empty (stripped) query, if the upstream search call fails (exception,
non-2xx status via `raise_for_status`, timeout, unparseable payload — all
modelled as an `Except.error` outcome of the upstream capability), the
handler answers `.ok` with an empty result list and empty `next_offset`
(`cache_time` 1, `is_personal` true): the failure does not propagate to
the platform-facing caller (bot.py lines 83-89). -/
theorem C5_failure_isolation (rawQuery rawOffset : Option String)
    (upstream : String → Option Json → Except Unit Json)
    (hfail : ∀ q t, upstream q t = Except.error ())
    (hq : pyStrip (rawQuery.getD "") ≠ "") :
    (inline_query_handler rawQuery rawOffset upstream).2
      = Except.ok { results := [], is_personal := true, cache_time := 1, next_offset := "" } := by
  simp only [inline_query_handler]
  rw [if_neg hq, hfail]
  rfl

/-- Witness for C5 at query `"cats"` with an always-failing upstream. -/
theorem C5_failure_isolation_witness :
    (∀ q t, failUpstream q t = Except.error ())
      ∧ pyStrip ((some "cats").getD "") ≠ ""
      ∧ (inline_query_handler (some "cats") none failUpstream).2
          = Except.ok { results := [], is_personal := true, cache_time := 1, next_offset := "" } :=
  ⟨fun _ _ => rfl, by decide,
    C5_failure_isolation (some "cats") none failUpstream (fun _ _ => rfl) (by decide)⟩

/-- C6 (confirmed): empty-query short-circuit — for every request whose
query is empty or whitespace-only (absent, `""`, or all-whitespace), the
handler performs no upstream call (the recorded call list is empty) and
answers with an empty result list and empty `next_offset`
(bot.py lines 67, 78-81). -/
theorem C6_empty_query (rawQuery rawOffset : Option String)
    (upstream : String → Option Json → Except Unit Json)
    (hq : (rawQuery.getD "").data.all pyWsChar = true) :
    inline_query_handler rawQuery rawOffset upstream
      = ([], Except.ok { results := [], is_personal := true, cache_time := 1, next_offset := "" }) := by
  have hstrip : pyStrip (rawQuery.getD "") = "" := pyStrip_all_ws _ hq
  simp only [inline_query_handler]
  rw [if_pos hstrip]
  rfl

/-- Witness for C6 at the whitespace-only query `"   "`. -/
theorem C6_empty_query_witness :
    ((some "   ").getD "" : String).data.all pyWsChar = true
      ∧ inline_query_handler (some "   ") (some "whatever") failUpstream
          = ([], Except.ok { results := [], is_personal := true, cache_time := 1, next_offset := "" }) :=
  ⟨by decide, C6_empty_query (some "   ") (some "whatever") failUpstream (by decide)⟩

/-- C2 counterexample: the claim quantifies over every inline request
with a non-empty offset, but when the trimmed query is empty the handler
returns before calling upstream (bot.py line 78), even if the offset
decodes to a matching query with a token — here the query is `""` and the
offset is `encode_offset "" (some "TOK1")`, which decodes to
`("", "TOK1")` and matches, yet no upstream call is made. -/
theorem C2_counterexample :
    (inline_query_handler (some "") (some (encode_offset "" (some "TOK1"))) failUpstream).1
      = [] := rfl

/-- C2 (amended): continuation resolution for requests whose trimmed
query is non-empty — given a non-empty offset decoding to `(Q, T)`: if
`Q` equals the current trimmed query (Python `==`, so only a string can
match), the one upstream call receives continuation token `T`; if the
decoded query differs — a different string, a non-string value, or a
failed decode (`Q` absent) — the upstream call receives an absent
continuation token (bot.py lines 69-84). -/
theorem C2_continuation_resolution (rawQuery rawOffset : Option String)
    (upstream : String → Option Json → Except Unit Json) (Q T : Option Json)
    (hq : pyStrip (rawQuery.getD "") ≠ "")
    (hoff : rawOffset.getD "" ≠ "")
    (hdec : decode_offset (rawOffset.getD "") = (Q, T)) :
    (Q = some (Json.str (pyStrip (rawQuery.getD ""))) →
      (inline_query_handler rawQuery rawOffset upstream).1
        = [(pyStrip (rawQuery.getD ""), T)])
    ∧ (Q ≠ some (Json.str (pyStrip (rawQuery.getD ""))) →
      (inline_query_handler rawQuery rawOffset upstream).1
        = [(pyStrip (rawQuery.getD ""), none)]) := by
  constructor
  · intro hQq
    have hpt : resolved_page_token (pyStrip (rawQuery.getD "")) (rawOffset.getD "") = T := by
      unfold resolved_page_token
      rw [if_pos hoff]
      simp only [hdec]
      rw [if_pos ((pyEqStr_eq_true Q (pyStrip (rawQuery.getD ""))).mpr hQq)]
    simp only [inline_query_handler, hpt]
    rw [if_neg hq]
    cases upstream (pyStrip (rawQuery.getD "")) T <;> rfl
  · intro hQne
    have hpt : resolved_page_token (pyStrip (rawQuery.getD "")) (rawOffset.getD "") = none := by
      unfold resolved_page_token
      rw [if_pos hoff]
      simp only [hdec]
      rw [if_neg (fun hcontra => hQne ((pyEqStr_eq_true Q (pyStrip (rawQuery.getD ""))).mp hcontra))]
    simp only [inline_query_handler, hpt]
    rw [if_neg hq]
    cases upstream (pyStrip (rawQuery.getD "")) none <;> rfl

/-- Witness for C2: query `" cats "` (stripping to `"cats"`) with the
offset `encode_offset "cats" (some "T1")` passes token `"T1"` upstream. -/
theorem C2_continuation_resolution_witness :
    pyStrip ((some " cats ").getD "") ≠ ""
      ∧ ((some (encode_offset "cats" (some "T1"))).getD "" : String) ≠ ""
      ∧ decode_offset ((some (encode_offset "cats" (some "T1"))).getD "")
          = (some (Json.str "cats"), some (Json.str "T1"))
      ∧ (inline_query_handler (some " cats ") (some (encode_offset "cats" (some "T1"))) failUpstream).1
          = [("cats", some (Json.str "T1"))] := by
  refine ⟨by decide, by decide, by rfl, ?_⟩
  exact (C2_continuation_resolution (some " cats ") (some (encode_offset "cats" (some "T1")))
    failUpstream (some (Json.str "cats")) (some (Json.str "T1"))
    (by decide) (by decide) (by rfl)).1 (by rfl)

/-- C7 counterexample: the claim "mapped result cards number at most
page_size even when the upstream response has more raw items" is false —
the mapping loop (bot.py lines 94-121) applies no local cap, so a
response with 15 id-bearing raw items yields 15 mapped cards, exceeding
`RESULTS_PER_PAGE = 10`. -/
theorem C7_counterexample :
    Except.map (fun a => a.results.length) (processResponse "cats" response15) = Except.ok 15
      ∧ RESULTS_PER_PAGE < 15 :=
  ⟨rfl, by decide⟩

/-- C7 (amended): each raw item yields at most one card, so the mapped
page never exceeds the raw item count; the only page-size limit is the
`maxResults` parameter sent upstream (bot.py line 40) — no local cap is
applied to the response. -/
theorem C7_no_cap (items : List Json) (cards : List Card)
    (h : mapResults items = Except.ok cards) :
    cards.length ≤ items.length := by
  rw [(mapResults_spec items cards h).1]
  exact List.countP_le_length _

/-- Witness for C7's amended bound on a one-item response. -/
theorem C7_no_cap_witness :
    mapResults [plainItem] = Except.ok [card0]
      ∧ ([card0] : List Card).length ≤ ([plainItem] : List Json).length :=
  ⟨rfl, C7_no_cap [plainItem] [card0] rfl⟩

/-- C8 counterexample: the claim "every upstream item lacking a
resolvable video identifier is excluded from the mapped page" is false
for an item with no "id" field at all — `it["id"]` (bot.py line 96)
raises `KeyError`, which is not caught, so the handler errors out instead
of skipping the item. -/
theorem C8_counterexample : processResponse "cats" responseNoId = Except.error () := rfl

/-- C8 (amended): when the mapping loop completes without raising, the
mapped cards are exactly the items whose `it["id"].get("videoId")`
extraction succeeds with a truthy value (one card per such item, so
falsy-id items are excluded), and every mapped card's id is the truthy
video id of one of the raw items; an item missing the "id" field
entirely makes the whole handler raise instead (see the
counterexample). -/
theorem C8_identifier_filtering (items : List Json) (cards : List Card)
    (h : mapResults items = Except.ok cards) :
    cards.length = items.countP itemHasVid
      ∧ ∀ c ∈ cards, ∃ it ∈ items, itemVid it = Except.ok c.id ∧ pyTruthy c.id = true :=
  mapResults_spec items cards h

/-- Witness for C8 on a one-item response. -/
theorem C8_identifier_filtering_witness :
    mapResults [plainItem] = Except.ok [card0]
      ∧ (([card0] : List Card).length = ([plainItem] : List Json).countP itemHasVid
        ∧ ∀ c ∈ ([card0] : List Card), ∃ it ∈ ([plainItem] : List Json),
            itemVid it = Except.ok c.id ∧ pyTruthy c.id = true) :=
  ⟨rfl, C8_identifier_filtering [plainItem] [card0] rfl⟩

/-- C9 counterexample: the claim "the card title defaults to `untitled`
when the snippet has no title" is false — the source's default is
`"YouTube video"` (bot.py line 100): a snippet with no title maps to a
card titled `"YouTube video"`, and `"YouTube video" ≠ "untitled"`. -/
theorem C9_counterexample :
    Except.map (fun a => a.results.map Card.title)
        (processResponse "cats" (Json.obj [("items", Json.arr [plainItem])]))
      = Except.ok [Json.str "YouTube video"]
      ∧ ("YouTube video" : String) ≠ "untitled" :=
  ⟨rfl, by decide⟩

/-- C9 (amended): mapping defaults — for every mapped card, the title
defaults to `"YouTube video"` (not `"untitled"`) when the snippet has no
title, and the secondary description line is the channel name when
present and non-empty, else the first 120 characters of the description,
else empty (bot.py lines 100-102, 116). -/
theorem C9_mapping_defaults (it : Json) (skvs : List (String × Json)) (c : Card)
    (hs : pyIndex it "snippet" = Except.ok (Json.obj skvs))
    (hc : mapItem it = Except.ok (some c)) :
    (lookupLast skvs "title" = none → c.title = Json.str "YouTube video")
    ∧ (∀ ch, lookupLast skvs "channelTitle" = some (Json.str ch) → ch ≠ "" →
        c.description = Json.str ch)
    ∧ ((lookupLast skvs "channelTitle" = none
          ∨ lookupLast skvs "channelTitle" = some (Json.str "")) →
        (∀ d, lookupLast skvs "description" = some (Json.str d) →
            c.description = Json.str (String.mk (d.data.take 120)))
        ∧ (lookupLast skvs "description" = none → c.description = Json.str "")) := by
  obtain ⟨hvid, htr, hbc⟩ := mapItem_ok_some it c hc
  obtain ⟨hid, ⟨s, channel, d0, desc, hs', htitle, hchan, hdesc0, hslice, hdescr⟩, hinput, hpm⟩ :=
    buildCard_ok it c.id c hbc
  rw [hs] at hs'
  injection hs' with hs'
  subst hs'
  simp only [pyDictGet_obj, Except.ok.injEq] at htitle hchan hdesc0
  refine ⟨?_, ?_, ?_⟩
  · intro hnone
    rw [hnone] at htitle
    exact htitle.symm
  · intro ch hch hchne
    rw [hch] at hchan
    subst hchan
    simp only [Option.getD_some] at hdescr
    rw [hdescr]
    unfold pyOr
    rw [if_pos (by simp [pyTruthy, hchne] : pyTruthy (Json.str ch) = true)]
  · intro hfalsy
    have hchfalse : pyTruthy channel = false := by
      rcases hfalsy with hn | he
      · rw [hn] at hchan
        subst hchan
        rfl
      · rw [he] at hchan
        subst hchan
        rfl
    have hdescr2 : c.description = desc := by
      rw [hdescr]
      unfold pyOr
      rw [hchfalse]
      rfl
    constructor
    · intro d hd
      rw [hd] at hdesc0
      subst hdesc0
      simp only [Option.getD_some] at hslice
      by_cases hde : d = ""
      · subst hde
        rw [show pyOr (Json.str "") (Json.str "") = Json.str "" from rfl] at hslice
        rw [show pySlice (Json.str "") 120 = Except.ok (Json.str "") from rfl] at hslice
        injection hslice with hslice
        rw [hdescr2, ← hslice]
        rfl
      · rw [show pyOr (Json.str d) (Json.str "") = if pyTruthy (Json.str d) then Json.str d
            else Json.str "" from rfl] at hslice
        rw [if_pos (by simp [pyTruthy, hde] : pyTruthy (Json.str d) = true)] at hslice
        rw [show pySlice (Json.str d) 120
            = Except.ok (Json.str (String.mk (d.data.take 120))) from rfl] at hslice
        injection hslice with hslice
        rw [hdescr2, ← hslice]
    · intro hnone
      rw [hnone] at hdesc0
      subst hdesc0
      simp only [Option.getD_none] at hslice
      rw [show pyOr Json.null (Json.str "") = Json.str "" from rfl] at hslice
      rw [show pySlice (Json.str "") 120 = Except.ok (Json.str "") from rfl] at hslice
      injection hslice with hslice
      rw [hdescr2, ← hslice]

/-- Witness for C9 on an item with an empty snippet. -/
theorem C9_mapping_defaults_witness :
    pyIndex plainItem "snippet" = Except.ok (Json.obj [])
      ∧ mapItem plainItem = Except.ok (some card0)
      ∧ (lookupLast [] "title" = none → card0.title = Json.str "YouTube video") :=
  ⟨rfl, rfl, (C9_mapping_defaults plainItem [] card0 rfl rfl).1⟩

/-- C10 (confirmed): inserted-message content — every mapped card's
message content is exactly the HTML-escaped concatenation of the item's
title, a newline, and `https://youtu.be/<videoId>`, delivered with HTML
parse mode; since the whole text is escaped, it contains no raw `<`, so
HTML in an upstream title can never be injected into the inserted
message (bot.py lines 105-108). -/
theorem C10_inserted_content (items : List Json) (cards : List Card)
    (h : mapResults items = Except.ok cards) :
    ∀ c ∈ cards,
      c.input_message_text
          = htmlEscape (pyStr c.title ++ "\n" ++ ("https://youtu.be/" ++ pyStr c.id))
        ∧ c.parse_mode = "HTML"
        ∧ '<' ∉ c.input_message_text.data := by
  induction items generalizing cards with
  | nil =>
    unfold mapResults at h
    simp only [Except.ok.injEq] at h
    subst h
    intro c hc
    simp at hc
  | cons it rest ih =>
    unfold mapResults at h
    cases hmi : mapItem it with
    | error e => simp [hmi] at h
    | ok oc =>
      simp only [hmi] at h
      cases oc with
      | none => exact ih cards h
      | some c0 =>
        cases hmr : mapResults rest with
        | error e => simp [hmr] at h
        | ok cs =>
          simp only [hmr, Except.ok.injEq] at h
          subst h
          intro c hc
          rcases List.mem_cons.mp hc with rfl | hc
          · obtain ⟨hvid, htr, hbc⟩ := mapItem_ok_some it c hmi
            obtain ⟨hid, hsnip, hinput, hpm⟩ := buildCard_ok it c.id c hbc
            refine ⟨hinput, hpm, ?_⟩
            rw [hinput]
            exact htmlEscape_no_lt _
          · exact ih cs hmr c hc

/-- Witness for C10 on an item whose title is `<b>hi</b>`. -/
theorem C10_inserted_content_witness :
    mapResults [htmlItem] = Except.ok [cardHtml]
      ∧ (cardHtml.input_message_text
            = htmlEscape (pyStr cardHtml.title ++ "\n" ++ ("https://youtu.be/" ++ pyStr cardHtml.id))
          ∧ cardHtml.parse_mode = "HTML"
          ∧ '<' ∉ cardHtml.input_message_text.data) :=
  ⟨rfl, C10_inserted_content [htmlItem] [cardHtml] rfl cardHtml (List.mem_singleton.mpr rfl)⟩
